import Mathlib

/-!
Verification of the idea-registry module `mcp_server_cloud.py`.

The module keeps a global list `IDEAS_DB` of idea records and exposes
pure tools over it.  We embed the Python code shallowly: the registry is
an explicit `List Idea` threaded through the operations, Python strings
are Lean `String`s, `str.lower()` is a character-wise lowercase map, the
`in` substring test is the decidable list-infix relation on the
underlying character data, and the wall clock read by `add_idea`
(`datetime.datetime.now().isoformat()`) is an explicit `now` argument.
-/

namespace McpServerCloud

/-- An idea record, mirroring the dict
`{"title": ..., "description": ..., "author": ..., "created_at": ...}`
built by `add_idea`. -/
structure Idea where
  title : String
  description : String
  author : String
  created_at : String
deriving DecidableEq, Repr

/-- Python `s.lower()`: lowercase every character. -/
def pyLower (s : String) : String := String.mk (s.data.map Char.toLower)

/-- Python `needle in haystack` on strings: `needle` occurs as a
contiguous substring of `haystack`. -/
def pyInStr (needle haystack : String) : Bool :=
  decide (needle.data <:+: haystack.data)

/-- A single-quote character, as it appears in the formatted messages. -/
def squote : String := String.singleton (Char.ofNat 39)

/-- `count_letter_r(text)`: `return text.lower().count('r')`. -/
def count_letter_r (text : String) : Nat :=
  (pyLower text).data.count (Char.ofNat 114)

/-- The confirmation string returned by `add_idea`:
`f"Idea registered: '{title}' by {author}"`. -/
def addConfirmation (title author : String) : String :=
  "Idea registered: " ++ squote ++ title ++ squote ++ " by " ++ author

/-- `add_idea(title, description, author)`: appends a new record whose
`created_at` is the clock value `now` read at call time, and returns the
new registry state together with the confirmation string. -/
def add_idea (now title description author : String) (db : List Idea) :
    List Idea × String :=
  let idea : Idea :=
    { title := title, description := description, author := author,
      created_at := now }
  (db ++ [idea], addConfirmation title author)

/-- `list_ideas()`: returns the whole registry. -/
def list_ideas (db : List Idea) : List Idea := db

/-- `say_hello(name)`:
`return f"Hello, {name}! Welcome to the FastMCP Cloud server!"`. -/
def say_hello (name : String) : String :=
  "Hello, " ++ name ++ "! Welcome to the FastMCP Cloud server!"

/-- The filter predicate of `find_idea`:
`keyword.lower() in idea["title"].lower() or keyword.lower() in idea["description"].lower()`. -/
def matchesKeyword (keyword : String) (idea : Idea) : Bool :=
  pyInStr (pyLower keyword) (pyLower idea.title) ||
    pyInStr (pyLower keyword) (pyLower idea.description)

/-- `find_idea(keyword)`: the list comprehension filtering `IDEAS_DB`. -/
def find_idea (keyword : String) (db : List Idea) : List Idea :=
  db.filter (matchesKeyword keyword)

/-- The formatted detail block returned by `idea_detail` on a hit. -/
def ideaDetailText (idea : Idea) : String :=
  "Idea: " ++ idea.title ++ "\n" ++
    "Description: " ++ idea.description ++ "\n" ++
    "Author: " ++ idea.author ++ "\n" ++
    "Date: " ++ idea.created_at

/-- The loop test of `idea_detail`:
`idea["title"].lower() == title.lower()`. -/
def titleMatches (title : String) (idea : Idea) : Bool :=
  pyLower idea.title == pyLower title

/-- The miss message of `idea_detail`:
`f"No idea found with the title '{title}'."`. -/
def notFoundText (title : String) : String :=
  "No idea found with the title " ++ squote ++ title ++ squote ++ "."

/-- `idea_detail(title)`: scans the registry in order and returns the
detail text of the first case-insensitive title match, or the miss
message.  The `for` loop returning on the first hit is `List.find?`. -/
def idea_detail (title : String) (db : List Idea) : String :=
  match db.find? (titleMatches title) with
  | some idea => ideaDetailText idea
  | none => notFoundText title

/-- Stateful view of `list_ideas`: the Python body only reads
`IDEAS_DB`, so the state component is returned unchanged. -/
def list_ideas_call (db : List Idea) : List Idea × List Idea :=
  (db, list_ideas db)

/-- Stateful view of `find_idea`: the body only reads `IDEAS_DB`. -/
def find_idea_call (keyword : String) (db : List Idea) :
    List Idea × List Idea :=
  (db, find_idea keyword db)

/-- Stateful view of `idea_detail`: the body only reads `IDEAS_DB`. -/
def idea_detail_call (title : String) (db : List Idea) :
    List Idea × String :=
  (db, idea_detail title db)

/-- One invocation of any of the four registry operations, with the
clock value read by `add_idea` made explicit. -/
inductive Op where
  | add (now title description author : String)
  | list
  | find (keyword : String)
  | detail (title : String)

/-- The registry state after one operation. -/
def applyOp (db : List Idea) : Op → List Idea
  | .add now title description author =>
      (add_idea now title description author db).1
  | .list => (list_ideas_call db).1
  | .find keyword => (find_idea_call keyword db).1
  | .detail title => (idea_detail_call title db).1

/-- The registry state after a sequence of operations. -/
def runOps (db : List Idea) (ops : List Op) : List Idea :=
  ops.foldl applyOp db

/-- Concrete record used to instantiate hypotheses at concrete inputs. -/
def ecoIdea : Idea :=
  { title := "Eco App", description := "Urban routes", author := "Mia",
    created_at := "2024-01-01T00:00:00" }

/-! ## Helper lemmas -/

/-- `List.find?` returns the head of the first hit when everything
before it fails the predicate. -/
theorem find?_append_first_hit {α : Type} (p : α → Bool) (pre post : List α)
    (a : α) (hpre : ∀ x ∈ pre, p x = false) (ha : p a = true) :
    (pre ++ a :: post).find? p = some a := by
  induction pre with
  | nil => simp [List.find?, ha]
  | cons x xs ih =>
    have hx : p x = false := hpre x (List.mem_cons_self x xs)
    have hxs : ∀ y ∈ xs, p y = false :=
      fun y hy => hpre y (List.mem_cons_of_mem x hy)
    simp [List.find?_cons, hx, ih hxs]

/-- A string is an infix of any string enclosing it. -/
theorem pyInStr_sandwich (a s b : String) : pyInStr s (a ++ s ++ b) = true := by
  apply decide_eq_true
  exact ⟨a.data, b.data, by simp⟩

/-- Lowercasing produces the empty string only from the empty string. -/
theorem pyLower_eq_empty_iff (s : String) : pyLower s = "" ↔ s = "" := by
  constructor
  · intro h
    cases s with
    | mk l =>
      cases l with
      | nil => rfl
      | cons c cs =>
        exfalso
        have hd := congrArg String.data h
        simp [pyLower] at hd
  · intro h
    subst h
    rfl

/-- Against the empty query title, the scan predicate of `idea_detail`
degenerates to an exact test for the empty stored title. -/
theorem titleMatches_empty_eq (x : Idea) :
    titleMatches "" x = (x.title == "") := by
  unfold titleMatches
  by_cases h : x.title = ""
  · simp [h]
  · have h1 : pyLower x.title ≠ pyLower "" :=
      fun hc => h ((pyLower_eq_empty_iff x.title).mp hc)
    simp [beq_iff_eq, h, h1]

/-- The registry can only grow at the end: any operation sequence keeps
the starting state as a prefix. -/
theorem runOps_prefix (ops : List Op) (db : List Idea) :
    db <+: runOps db ops := by
  induction ops generalizing db with
  | nil => exact List.prefix_refl db
  | cons op ops ih =>
    have h1 : db <+: applyOp db op := by
      cases op with
      | add now title description author => exact List.prefix_append db _
      | list => exact List.prefix_refl db
      | find keyword => exact List.prefix_refl db
      | detail title => exact List.prefix_refl db
    exact h1.trans (ih (applyOp db op))

/-! ## Claims -/

/-- Claim C1: for every keyword and registry state, `find_idea` returns
a subsequence of `list_ideas()` (so relative insertion order is
preserved), and every returned idea contains the keyword
case-insensitively as a substring of its title or of its description. -/
theorem find_idea_subseq_and_matches (keyword : String) (db : List Idea) :
    List.Sublist (find_idea keyword db) (list_ideas db) ∧
    ∀ idea ∈ find_idea keyword db,
      pyInStr (pyLower keyword) (pyLower idea.title) = true ∨
      pyInStr (pyLower keyword) (pyLower idea.description) = true := by
  constructor
  · exact List.filter_sublist db
  · intro idea hmem
    have h := (List.mem_filter.mp hmem).2
    simpa [matchesKeyword] using h

/-- Claim C2: after `add_idea(title, description, author)` at clock
value `now`, `list_ideas()` ends in a record carrying exactly those
three fields, whose `created_at` is no earlier than any instant `t0`
taken before the call (clock monotonicity: `t0 ≤ now`). -/
theorem add_then_list_last (db : List Idea)
    (title description author now t0 : String) (h : t0 ≤ now) :
    ∃ idea : Idea,
      (list_ideas (add_idea now title description author db).1).getLast? =
        some idea ∧
      idea.title = title ∧ idea.description = description ∧
      idea.author = author ∧ t0 ≤ idea.created_at := by
  refine ⟨{ title := title, description := description, author := author,
            created_at := now }, ?_, rfl, rfl, rfl, h⟩
  exact List.getLast?_concat db

/-- Witness for C2 at a concrete registry and clock values. -/
theorem add_then_list_last_witness :
    ("2024-01-02" : String) ≤ "2024-01-02" ∧
    ∃ idea : Idea,
      (list_ideas (add_idea "2024-01-02" "Eco App" "Urban routes" "Mia"
        [ecoIdea]).1).getLast? = some idea ∧
      idea.title = "Eco App" ∧ idea.description = "Urban routes" ∧
      idea.author = "Mia" ∧ ("2024-01-02" : String) ≤ idea.created_at :=
  ⟨le_refl _,
   add_then_list_last [ecoIdea] "Eco App" "Urban routes" "Mia"
     "2024-01-02" "2024-01-02" (le_refl _)⟩

/-- Claim C3: when the registry decomposes as `pre ++ idea :: post` with
no case-insensitive title hit in `pre` and a hit at `idea`, then
`idea_detail` returns the formatted detail text of that first hit, and
that text contains the idea's title, description, author and
`created_at` as substrings. -/
theorem idea_detail_first_match (db pre post : List Idea) (title : String)
    (idea : Idea) (hdb : db = pre ++ idea :: post)
    (hpre : ∀ x ∈ pre, titleMatches title x = false)
    (hit : titleMatches title idea = true) :
    idea_detail title db = ideaDetailText idea ∧
    pyInStr idea.title (idea_detail title db) = true ∧
    pyInStr idea.description (idea_detail title db) = true ∧
    pyInStr idea.author (idea_detail title db) = true ∧
    pyInStr idea.created_at (idea_detail title db) = true := by
  subst hdb
  have hfind : (pre ++ idea :: post).find? (titleMatches title) = some idea :=
    find?_append_first_hit (titleMatches title) pre post idea hpre hit
  have hdet : idea_detail title (pre ++ idea :: post) = ideaDetailText idea := by
    unfold idea_detail
    rw [hfind]
  refine ⟨hdet, ?_, ?_, ?_, ?_⟩ <;> rw [hdet] <;> apply decide_eq_true
  · exact ⟨"Idea: ".data,
      ("\n" ++ "Description: " ++ idea.description ++ "\n" ++ "Author: " ++
        idea.author ++ "\n" ++ "Date: " ++ idea.created_at).data,
      by simp [ideaDetailText]⟩
  · exact ⟨("Idea: " ++ idea.title ++ "\n" ++ "Description: ").data,
      ("\n" ++ "Author: " ++ idea.author ++ "\n" ++ "Date: " ++
        idea.created_at).data,
      by simp [ideaDetailText]⟩
  · exact ⟨("Idea: " ++ idea.title ++ "\n" ++ "Description: " ++
        idea.description ++ "\n" ++ "Author: ").data,
      ("\n" ++ "Date: " ++ idea.created_at).data,
      by simp [ideaDetailText]⟩
  · exact ⟨("Idea: " ++ idea.title ++ "\n" ++ "Description: " ++
        idea.description ++ "\n" ++ "Author: " ++ idea.author ++ "\n" ++
        "Date: ").data, [],
      by simp [ideaDetailText]⟩

/-- Witness for C3: a one-element registry queried with a
different-case title. -/
theorem idea_detail_first_match_witness :
    titleMatches "eco app" ecoIdea = true ∧
    idea_detail "eco app" [ecoIdea] = ideaDetailText ecoIdea ∧
    pyInStr ecoIdea.title (idea_detail "eco app" [ecoIdea]) = true ∧
    pyInStr ecoIdea.description (idea_detail "eco app" [ecoIdea]) = true ∧
    pyInStr ecoIdea.author (idea_detail "eco app" [ecoIdea]) = true ∧
    pyInStr ecoIdea.created_at (idea_detail "eco app" [ecoIdea]) = true :=
  ⟨by decide,
   idea_detail_first_match [ecoIdea] [] [] "eco app" ecoIdea rfl
     (by intro x hx; cases hx) (by decide)⟩

/-- Claim C4: when no stored title matches the queried title
case-insensitively, `idea_detail` returns (as an ordinary value) the
fixed-format miss message embedding the queried title; in particular for
the query `Unknown` it is the single-quoted text named in the spec. -/
theorem idea_detail_not_found (db : List Idea) (title : String)
    (h : ∀ idea ∈ db, titleMatches title idea = false) :
    idea_detail title db =
      "No idea found with the title " ++ squote ++ title ++ squote ++ "." ∧
    idea_detail title db = notFoundText title ∧
    notFoundText "Unknown" =
      "No idea found with the title " ++ squote ++ "Unknown" ++ squote ++ "." := by
  have hnone : db.find? (titleMatches title) = none :=
    List.find?_eq_none.mpr (fun x hx => by simp [h x hx])
  have hmain : idea_detail title db = notFoundText title := by
    unfold idea_detail
    rw [hnone]
  exact ⟨hmain, hmain, rfl⟩

/-- Witness for C4: querying `Unknown` against a registry holding only
`ecoIdea`. -/
theorem idea_detail_not_found_witness :
    (∀ idea ∈ [ecoIdea], titleMatches "Unknown" idea = false) ∧
    idea_detail "Unknown" [ecoIdea] =
      "No idea found with the title " ++ squote ++ "Unknown" ++ squote ++ "." :=
  ⟨by decide,
   (idea_detail_not_found [ecoIdea] "Unknown" (by decide)).1⟩

/-- Claim C5, counterexample: the spec computes
`count_letter_r("Programmer") == 2`, but the lowercased word
`programmer` holds three occurrences of `r`, so the code returns 3. -/
theorem count_letter_r_programmer_not_two :
    ¬ count_letter_r "Programmer" = 2 := by decide

/-- Claim C5, amended: `count_letter_r("Programmer")` equals 3. -/
theorem count_letter_r_programmer_eq_three :
    count_letter_r "Programmer" = 3 := by decide

/-- Claim C6: `say_hello` embeds the name verbatim in the fixed
greeting template, and on `Ada` yields the exact greeting string. -/
theorem say_hello_spec (name : String) :
    say_hello name =
      "Hello, " ++ name ++ "! Welcome to the FastMCP Cloud server!" ∧
    say_hello "Ada" = "Hello, Ada! Welcome to the FastMCP Cloud server!" :=
  ⟨rfl, by decide⟩

/-- Claim C7: the empty keyword matches every idea, so
`find_idea("")` returns the whole registry, exactly `list_ideas()`. -/
theorem find_idea_empty_keyword (db : List Idea) :
    find_idea "" db = list_ideas db := by
  unfold find_idea list_ideas
  apply List.filter_eq_self.mpr
  intro a _
  have h1 : pyInStr (pyLower "") (pyLower a.title) = true :=
    decide_eq_true List.nil_infix
  simp [matchesKeyword, h1]

/-- Claim C8: `add_idea` is not idempotent — every call grows the
registry by exactly one record, duplicates included. -/
theorem add_idea_increments_size (db : List Idea)
    (now title description author : String) :
    ((add_idea now title description author db).1).length = db.length + 1 := by
  simp [add_idea]

/-- Claim C9: the read operations return the registry state unchanged,
and an arbitrary sequence of operations never alters or removes a
stored record: the starting registry stays a prefix, so every
already-stored idea survives at its index with all fields intact. -/
theorem registry_append_only (db : List Idea) (ops : List Op)
    (keyword title : String) :
    (list_ideas_call db).1 = db ∧
    (find_idea_call keyword db).1 = db ∧
    (idea_detail_call title db).1 = db ∧
    db <+: runOps db ops ∧
    (runOps db ops).take db.length = db := by
  refine ⟨rfl, rfl, rfl, runOps_prefix ops db, ?_⟩
  obtain ⟨t, ht⟩ := runOps_prefix ops db
  rw [← ht]
  exact List.take_left db t

/-- Claim C10: with the empty string as queried title, `idea_detail`
does not match everything: it returns the detail text of the first idea
whose stored title is itself empty, and otherwise the miss message
quoting the empty title. -/
theorem idea_detail_empty_title (db : List Idea) :
    (idea_detail "" db =
      match db.find? (fun x => x.title == "") with
      | some idea => ideaDetailText idea
      | none => notFoundText "") ∧
    notFoundText "" =
      "No idea found with the title " ++ squote ++ squote ++ "." := by
  constructor
  · have hfun : titleMatches "" = fun x => x.title == "" :=
      funext titleMatches_empty_eq
    unfold idea_detail
    rw [hfun]
  · decide

end McpServerCloud
